import Mathlib

/-!
Verification development for the cloud-run-limit-checker repository.

Shallow embedding of the Go checker (`checker/main.go`), the Go
orchestrator (`deploy`/`delete` phases), and the deploy shell script
(`scripts/deploy.sh`).  Remote interactions (HTTP calls, control-plane
submissions, operation waits) are modelled as explicit outcome values
handed to the embedded control flow, which is translated line by line
from the source.
-/

namespace CRLC

/-! ## Data model of `checker/main.go` -/

/-- `serviceInfo` from `checker/main.go`: short name and access URI. -/
structure ServiceInfo where
  name : String
  uri : String
deriving Repr, DecidableEq

/-- `result` from `checker/main.go`. Go zero values (`0`, `""`) stand for
fields that a branch leaves unset. -/
structure ProbeResult where
  service : String
  url : String
  statusCode : Nat
  body : String
  pass : Bool
  error : String
deriving Repr, DecidableEq

/-- The Go zero value of `result`, as produced by `make([]result, n)`. -/
def probeZero : ProbeResult := ⟨"", "", 0, "", false, ""⟩

/-- Outcome of one `client.Get(url)` call followed by `io.ReadAll(resp.Body)`:
either a transport error, or a response carrying a status code together with
the result of reading the body. -/
inductive HttpOutcome where
  | transportError (msg : String)
  | response (status : Nat) (bodyRead : Except String String)
deriving Repr

/-- `pingService` from `checker/main.go` (lines 202-235), with the HTTP
call abstracted into an `HttpOutcome`.  `http.StatusOK = 200`. -/
def pingService (svc : ServiceInfo) (out : HttpOutcome) : ProbeResult :=
  let url := svc.uri ++ "/ping"
  match out with
  | HttpOutcome.transportError msg =>
      ⟨svc.name, url, 0, "", false, msg⟩
  | HttpOutcome.response st (Except.error m) =>
      ⟨svc.name, url, st, "", false, "failed to read response body: " ++ m⟩
  | HttpOutcome.response st (Except.ok data) =>
      ⟨svc.name, url, st, data, st == 200, ""⟩

/-! ## `pingAll` (lines 183-200)

`pingAll` allocates `results := make([]result, len(services))`, spawns one
goroutine per index, and each goroutine writes `results[idx] =
pingService(s)` for its own pre-assigned index.  The nondeterministic
completion order of the goroutines is modelled by an explicit list
`order` of indices: the slot writes are performed in that order.  `env`
gives the HTTP outcome observed for each index. -/

def pingAllWrites (services : List ServiceInfo) (env : Nat → HttpOutcome) :
    List Nat → List ProbeResult → List ProbeResult
  | [], acc => acc
  | idx :: rest, acc =>
    match services[idx]? with
    | some s => pingAllWrites services env rest (acc.set idx (pingService s (env idx)))
    | none => pingAllWrites services env rest acc

/-- `pingAll` under an arbitrary completion order of the goroutines. -/
def pingAllExec (services : List ServiceInfo) (env : Nat → HttpOutcome)
    (order : List Nat) : List ProbeResult :=
  pingAllWrites services env order (List.replicate services.length probeZero)

/-- `pingAll` with the canonical completion order. -/
def pingAll (services : List ServiceInfo) (env : Nat → HttpOutcome) : List ProbeResult :=
  pingAllExec services env (List.range services.length)

/-! ## Result aggregation and exit code (`main`, lines 73-108) -/

/-- `passed` counter of the result loop in `main`. -/
def passedCount (rs : List ProbeResult) : Nat :=
  (rs.filter (fun r => r.pass)).length

/-- `failed` counter of the result loop in `main`. -/
def failedCount (rs : List ProbeResult) : Nat :=
  (rs.filter (fun r => !r.pass)).length

/-- Outcome of `listServices` as observed by `main`. -/
inductive ListOutcome where
  | failure (msg : String)
  | ok (services : List ServiceInfo)

/-- Exit code of the checker `main` (lines 48-108): list failure and the
empty service set exit 1 before any summary; otherwise the summary is
logged and the process exits 1 iff `failed > 0`. -/
def checkerMain (lo : ListOutcome) (env : Nat → HttpOutcome) : Nat :=
  match lo with
  | ListOutcome.failure _ => 1
  | ListOutcome.ok services =>
    if services.length = 0 then 1
    else if failedCount (pingAll services env) > 0 then 1 else 0

/-! ## `parseConcurrency` (lines 123-132) and `strconv.Atoi` -/

/-- Accumulating decimal parser: consumes the remaining characters, which
must all be digits. -/
def digitsToNat : List Char → Nat → Option Nat
  | [], acc => some acc
  | c :: rest, acc =>
    if c.isDigit then digitsToNat rest (acc * 10 + (c.toNat - '0'.toNat))
    else none

/-- `strconv.Atoi`: optional sign, one or more digits, nothing else;
values outside the 64-bit signed range are range errors. -/
def atoi (s : String) : Option Int :=
  match s.data with
  | [] => none
  | c :: rest =>
    let signDigits : Bool × List Char :=
      if c = '-' then (true, rest)
      else if c = '+' then (false, rest)
      else (false, c :: rest)
    match signDigits with
    | (_, []) => none
    | (neg, ds) =>
      match digitsToNat ds 0 with
      | none => none
      | some n =>
        let v : Int := if neg then -(n : Int) else (n : Int)
        if v < -(2 ^ 63) ∨ 2 ^ 63 ≤ v then none else some v

/-- `parseConcurrency` from `checker/main.go`: empty value, parse error,
or a value below 1 all yield the default. -/
def parseConcurrency (val : String) (defaultVal : Int) : Int :=
  if val = "" then defaultVal
  else
    match atoi val with
    | none => defaultVal
    | some n => if n < 1 then defaultVal else n

/-! ## `listServices` (lines 145-181) -/

/-- A raw service descriptor yielded by the `ListServices` iterator:
full resource name `projects/p/locations/l/services/name` plus URI. -/
structure RemoteService where
  name : String
  uri : String
deriving Repr, DecidableEq

/-- `strings.Split(s, "/")` followed by taking the last component. -/
def splitSlashAux : List Char → String → List String
  | [], cur => [cur]
  | c :: rest, cur =>
    if c = '/' then cur :: splitSlashAux rest ""
    else splitSlashAux rest (cur.push c)

/-- `parts := strings.Split(svc.Name, "/"); shortName := parts[len(parts)-1]`. -/
def shortNameOf (full : String) : String :=
  (splitSlashAux full.data "").getLastD ""

/-- `strings.HasPrefix(s, p)`. -/
def isPrefixList : List Char → List Char → Bool
  | [], _ => true
  | _ :: _, [] => false
  | a :: as, b :: bs => a == b && isPrefixList as bs

def hasStrPrefix (s p : String) : Bool := isPrefixList p.data s.data

/-- `listServices` from `checker/main.go`: keeps every service whose short
name has the configured prefix as a plain textual prefix. -/
def listServices (pfx : String) (remote : List RemoteService) : List ServiceInfo :=
  remote.filterMap fun svc =>
    if hasStrPrefix (shortNameOf svc.name) pfx
    then some ⟨shortNameOf svc.name, svc.uri⟩ else none

/-- Modelled from the spec: the "prefix-and-numeric-suffix pattern" the
spec attributes to Resource Discovery — the prefix, a hyphen, then one or
more digits and nothing else.  Declared only to compare the spec's filter
with the source's. -/
def specPrefixNumericPattern (pfx short : String) : Bool :=
  hasStrPrefix short (pfx ++ "-") &&
    (let rest := (short.data).drop (pfx.length + 1)
     !rest.isEmpty && rest.all Char.isDigit)

/-! ## Orchestrator deploy phase (`deployServices`, lines 133-216 of the
orchestrator source)

Per target, the interaction with the control plane is one of: the create
submission is rejected with `AlreadyExists`; it is rejected with some
other error; or it is accepted and the returned operation's `Wait` later
yields ok or an error. -/

inductive CreateOutcome where
  | alreadyExists
  | submitError (msg : String)
  | accepted (wait : Except String Unit)
deriving Repr

/-- The fire loop of `deployServices` (lines 155-181): counts
`AlreadyExists` rejections as `skipped`, logs and drops other submission
errors, and collects accepted operations into `ops` in order. -/
def fireLoop : List CreateOutcome → Nat × List (Except String Unit)
  | [] => (0, [])
  | CreateOutcome.alreadyExists :: rest =>
    let r := fireLoop rest
    (r.1 + 1, r.2)
  | CreateOutcome.submitError _ :: rest => fireLoop rest
  | CreateOutcome.accepted w :: rest =>
    let r := fireLoop rest
    (r.1, w :: r.2)

/-- The wait loop (lines 186-202 / 319-337): returns (number of waits
that returned ok, number of waits that returned an error). -/
def waitLoop : List (Except String Unit) → Nat × Nat
  | [] => (0, 0)
  | Except.ok _ :: rest =>
    let r := waitLoop rest
    (r.1 + 1, r.2)
  | Except.error _ :: rest =>
    let r := waitLoop rest
    (r.1, r.2 + 1)

/-- The `deploy_summary` log event (lines 204-210). -/
structure DeploySummary where
  succeeded : Nat
  failed : Nat
  skipped : Nat
  total : Nat
deriving Repr, DecidableEq

/-- `deployServices`: `succeeded` starts at `skipped`, the wait loop adds
its ok count; `total` is `cfg.Count`, the number of targets iterated.
`outs` lists the control-plane outcome for target `i` at position `i`. -/
def deployServices (outs : List CreateOutcome) : DeploySummary :=
  let fire := fireLoop outs
  let waits := waitLoop fire.2
  ⟨fire.1 + waits.1, waits.2, fire.1, outs.length⟩

/-- The error value `deployServices` returns (lines 212-215): non-nil iff
`failed > 0`. -/
def deployServicesErr (outs : List CreateOutcome) : Option String :=
  let s := deployServices outs
  if s.failed > 0 then some (toString s.failed ++ " service(s) failed to deploy")
  else none

/-! ## Orchestrator delete phase (`deleteServices`, lines 257-350) -/

inductive DeleteOutcome where
  | notFound
  | submitError (msg : String)
  | accepted (wait : Except String Unit)
deriving Repr

/-- The delete fire loop (lines 296-314): `NotFound` and other submission
errors are logged and dropped; accepted operations are collected. -/
def deleteFireLoop : List DeleteOutcome → List (Except String Unit)
  | [] => []
  | DeleteOutcome.notFound :: rest => deleteFireLoop rest
  | DeleteOutcome.submitError _ :: rest => deleteFireLoop rest
  | DeleteOutcome.accepted w :: rest => w :: deleteFireLoop rest

/-- The `delete_summary` log event (lines 339-344): it has no `skipped`
field; `total` is the number of discovered service names. -/
structure DeleteSummary where
  succeeded : Nat
  failed : Nat
  total : Nat
deriving Repr, DecidableEq

def deleteServices (outs : List DeleteOutcome) : DeleteSummary :=
  let waits := waitLoop (deleteFireLoop outs)
  ⟨waits.1, waits.2, outs.length⟩

/-- The error value `deleteServices` returns (lines 346-349). -/
def deleteServicesErr (outs : List DeleteOutcome) : Option String :=
  let s := deleteServices outs
  if s.failed > 0 then some (toString s.failed ++ " service(s) failed to delete")
  else none

/-- How a target's outcome is recorded in the structured log: the
per-target log events `service_already_exists` / `service_not_found`
(skip), `create_service_failed` / `service_deploy_failed` /
`delete_service_failed` (failure, detail preserved), `service_deployed` /
`service_deleted` (success). -/
inductive RecordedOutcome where
  | succeededRec
  | skippedRec
  | failedRec (detail : String)
deriving Repr, DecidableEq

def classifyCreate : CreateOutcome → RecordedOutcome
  | CreateOutcome.alreadyExists => RecordedOutcome.skippedRec
  | CreateOutcome.submitError m => RecordedOutcome.failedRec m
  | CreateOutcome.accepted (Except.ok _) => RecordedOutcome.succeededRec
  | CreateOutcome.accepted (Except.error m) => RecordedOutcome.failedRec m

def classifyDelete : DeleteOutcome → RecordedOutcome
  | DeleteOutcome.notFound => RecordedOutcome.skippedRec
  | DeleteOutcome.submitError m => RecordedOutcome.failedRec m
  | DeleteOutcome.accepted (Except.ok _) => RecordedOutcome.succeededRec
  | DeleteOutcome.accepted (Except.error m) => RecordedOutcome.failedRec m

/-- The orchestrator `main` (lines 97-103): exit 1 iff a phase returned a
non-nil error, else exit 0. -/
def procExit (e : Option String) : Nat :=
  match e with
  | some _ => 1
  | none => 0

/-- The delete-phase discovery (lines 267-282): keeps the full resource
name of every service whose short name starts with `prefix + "-"`. -/
def deleteServiceNames (pfx : String) (remote : List RemoteService) : List String :=
  remote.filterMap fun svc =>
    if hasStrPrefix (shortNameOf svc.name) (pfx ++ "-") then some svc.name else none

/-! ## `scripts/deploy.sh`: batched deployment with retry rounds

`deploy_batch_list` walks the name list in batches of `BATCH_SIZE`,
forking one `gcloud run deploy` per name and collecting the names whose
process exited non-zero into `FAILED_NAMES`.  Whether a name's deploy
fails in a given round is abstracted as a predicate; `fails r name`
says the deploy of `name` fails in round `r`. -/

/-- `deploy_batch_list` (lines 160-216).  The returned list is the final
`FAILED_NAMES`.  For `bs = 0` the shell loop never advances; the model
returns `[]` there, a case outside every claim (the script default is
50 and all statements assume `1 ≤ bs`). -/
def deployBatchList (fails : String → Bool) (bs : Nat) (names : List String) :
    List String :=
  match names with
  | [] => []
  | n :: rest =>
    if _hbs : bs = 0 then []
    else
      ((n :: rest).take bs).filter fails ++
        deployBatchList fails bs ((n :: rest).drop bs)
termination_by names.length
decreasing_by
  simp only [List.length_drop, List.length_cons]
  omega

/-- One round of the retry loop in `deploy_services` (lines 268-276):
the backoff slept before resubmitting, the set of names resubmitted, and
the `FAILED_NAMES` left after the round. -/
structure Round where
  backoffSeconds : Nat
  submitted : List String
  failedAfter : List String
deriving Repr, DecidableEq

/-- The retry loop of `deploy_services`: `retry` is the bash `retry`
counter, `rem` the remaining rounds (`max_retries - retry`), `failed`
the current `FAILED_NAMES`.  Stops when `FAILED_NAMES` is empty or the
round budget is exhausted. -/
def retryLoop (fails : Nat → String → Bool) (bs : Nat) :
    Nat → Nat → List String → List Round
  | _, 0, _ => []
  | retry, rem + 1, failed =>
    if failed.isEmpty then []
    else
      let nextFailed := deployBatchList (fails (retry + 1)) bs failed
      ⟨30, failed, nextFailed⟩ :: retryLoop fails bs (retry + 1) rem nextFailed

/-- `deploy_services` (lines 265-276), round view: the initial submission
of all names (round 0, no backoff) followed by up to `max_retries = 3`
retry rounds. -/
def deployServicesRounds (fails : Nat → String → Bool) (bs : Nat)
    (names : List String) : List Round :=
  let f0 := deployBatchList (fails 0) bs names
  ⟨0, names, f0⟩ :: retryLoop fails bs 0 3 f0

/-- The retry loop, final-state view: the `FAILED_NAMES` array left when
the loop exits, from which the script reports `total_failed`. -/
def retryFinal (fails : Nat → String → Bool) (bs : Nat) :
    Nat → Nat → List String → List String
  | _, 0, failed => failed
  | retry, rem + 1, failed =>
    if failed.isEmpty then failed
    else retryFinal fails bs (retry + 1) rem (deployBatchList (fails (retry + 1)) bs failed)

/-- The final `FAILED_NAMES` reported by `deploy_services` (lines 278-284). -/
def deployServicesFinalFailed (fails : Nat → String → Bool) (bs : Nat)
    (names : List String) : List String :=
  retryFinal fails bs 0 3 (deployBatchList (fails 0) bs names)

/-- The failed set left after the last of a list of rounds, seeded with
the failed set entering the list. -/
def lastFailed : List String → List Round → List String
  | f, [] => f
  | _, r :: rs => lastFailed r.failedAfter rs

/-- The rounds of one deployment run chain together: each round submits
exactly the failed set entering it, and what it leaves failed is a subset
of what it submitted. -/
def chained : List String → List Round → Prop
  | _, [] => True
  | f, r :: rs => r.submitted = f ∧ r.failedAfter ⊆ r.submitted ∧ chained r.failedAfter rs

/-! ## Semaphore model for `pingAll`'s concurrency gate

`pingAll` gates each goroutine's probe with a buffered channel
`sem := make(chan struct{}, concurrency)`: a goroutine sends into `sem`
before calling `pingService` and receives from it after.  A send can
only complete while fewer than `concurrency` slots are held, i.e. while
fewer than `concurrency` probes are executing. -/

/-- Scheduler state of `pingAll`: goroutines not yet past `sem <-`,
goroutines currently inside `pingService`, goroutines past `<-sem`. -/
structure SemState where
  waiting : Nat
  executing : Nat
  finished : Nat
deriving Repr, DecidableEq

/-- One scheduler step: a waiting goroutine completes its send into the
buffered channel (possible only while the buffer has a free slot, i.e.
`executing < c`), or an executing goroutine finishes its probe and
receives from the channel. -/
inductive SemStep (c : Nat) : SemState → SemState → Prop where
  | acquire (w e d : Nat) : e < c → SemStep c ⟨w + 1, e, d⟩ ⟨w, e + 1, d⟩
  | release (w e d : Nat) : SemStep c ⟨w, e + 1, d⟩ ⟨w, e, d + 1⟩

/-- States reachable during a run of `pingAll` over `n` services with
concurrency bound `c`: all `n` goroutines start waiting. -/
def SemReachable (c n : Nat) (s : SemState) : Prop :=
  Relation.ReflTransGen (SemStep c) ⟨n, 0, 0⟩ s

/-! ## Theorems -/

/-- C1: the deploy summary is `⟨succeeded, failed, skipped, total⟩`.
A create submission rejected with a generic error is counted in no field,
so `total = 1` while `succeeded + failed + skipped = 0`; an
`AlreadyExists` rejection is counted both inside `succeeded` (which
starts at `skipped`) and in `skipped`, giving `succeeded + failed +
skipped = 2` against `total = 1`; a delete of an absent service leaves
`total = 1` against `succeeded + failed = 0`.  The claimed invariant
`total == succeeded + failed + skipped` fails at each of these reads. -/
theorem c1_summary_invariant_fails_at_deploy_and_delete :
    deployServices [CreateOutcome.submitError "boom"] = ⟨0, 0, 0, 1⟩
    ∧ (deployServices [CreateOutcome.submitError "boom"]).total ≠
        (deployServices [CreateOutcome.submitError "boom"]).succeeded +
        (deployServices [CreateOutcome.submitError "boom"]).failed +
        (deployServices [CreateOutcome.submitError "boom"]).skipped
    ∧ deployServices [CreateOutcome.alreadyExists] = ⟨1, 0, 1, 1⟩
    ∧ (deployServices [CreateOutcome.alreadyExists]).total ≠
        (deployServices [CreateOutcome.alreadyExists]).succeeded +
        (deployServices [CreateOutcome.alreadyExists]).failed +
        (deployServices [CreateOutcome.alreadyExists]).skipped
    ∧ deleteServices [DeleteOutcome.notFound] = ⟨0, 0, 1⟩
    ∧ (deleteServices [DeleteOutcome.notFound]).total ≠
        (deleteServices [DeleteOutcome.notFound]).succeeded +
        (deleteServices [DeleteOutcome.notFound]).failed := by
  decide

/-- C2: a create submission error other than `AlreadyExists` is recorded
per-target as a failure with its detail preserved (the
`create_service_failed` log event), and sibling targets keep going — but
it contributes nothing to the phase's `failed` count: with one rejected
submission next to one successful deploy the summary reads `failed = 0`
and the phase reports success, while a wait-phase error is counted. -/
theorem c2_submit_error_recorded_but_not_counted :
    classifyCreate (CreateOutcome.submitError "boom") = RecordedOutcome.failedRec "boom"
    ∧ classifyCreate (CreateOutcome.accepted (Except.error "prov")) =
        RecordedOutcome.failedRec "prov"
    ∧ (deployServices [CreateOutcome.submitError "boom",
        CreateOutcome.accepted (Except.ok ())]).succeeded = 1
    ∧ (deployServices [CreateOutcome.submitError "boom",
        CreateOutcome.accepted (Except.ok ())]).failed = 0
    ∧ (deployServices [CreateOutcome.accepted (Except.error "prov")]).failed = 1
    ∧ deployServicesErr [CreateOutcome.submitError "boom"] = none := by
  decide

/-- C3 counterexample: a response whose body cannot be read refutes the
claimed classification — with status 200 it still yields `pass = false`,
and with a non-200 status the `error` field is populated, not empty. -/
theorem c3_counterexample_body_read_failure :
    (pingService ⟨"svc", "http://u"⟩
        (HttpOutcome.response 200 (Except.error "read fail"))).statusCode = 200
    ∧ (pingService ⟨"svc", "http://u"⟩
        (HttpOutcome.response 200 (Except.error "read fail"))).pass = false
    ∧ (pingService ⟨"svc", "http://u"⟩
        (HttpOutcome.response 503 (Except.error "read fail"))).error ≠ "" := by
  decide

/-- C3 amended: a transport error yields `pass = false` with the
transport message and no status code; a response whose body cannot be
read yields `pass = false` with the status recorded and the read error
in `error`; a response whose body is read yields `pass` iff the status
equals 200, with body captured and no error.  Hence `pass = true` iff
the call produced a readable response with the expected status. -/
theorem c3_probe_classification (svc : ServiceInfo) (msg m b : String) (st : Nat)
    (out : HttpOutcome) :
    pingService svc (HttpOutcome.transportError msg) =
      ⟨svc.name, svc.uri ++ "/ping", 0, "", false, msg⟩
    ∧ pingService svc (HttpOutcome.response st (Except.error m)) =
      ⟨svc.name, svc.uri ++ "/ping", st, "", false, "failed to read response body: " ++ m⟩
    ∧ pingService svc (HttpOutcome.response st (Except.ok b)) =
      ⟨svc.name, svc.uri ++ "/ping", st, b, st == 200, ""⟩
    ∧ ((pingService svc out).pass = true ↔
        ∃ body, out = HttpOutcome.response 200 (Except.ok body)) := by
  refine ⟨rfl, rfl, rfl, ?_⟩
  cases out with
  | transportError msg2 => simp [pingService]
  | response st2 r =>
    cases r with
    | error e => simp [pingService]
    | ok body => simp [pingService]

/-- C4: `AlreadyExists` on create and `NotFound` on delete are recorded
as skips (the `service_already_exists` / `service_not_found` events),
never enter the `failed` count, and leave the phase's error verdict
unchanged; on create the skip is counted in `skipped`. -/
theorem c4_idempotency_conflicts_are_skips (outs : List CreateOutcome)
    (douts : List DeleteOutcome) :
    classifyCreate CreateOutcome.alreadyExists = RecordedOutcome.skippedRec
    ∧ classifyDelete DeleteOutcome.notFound = RecordedOutcome.skippedRec
    ∧ (deployServices (CreateOutcome.alreadyExists :: outs)).failed =
        (deployServices outs).failed
    ∧ (deployServices (CreateOutcome.alreadyExists :: outs)).skipped =
        (deployServices outs).skipped + 1
    ∧ deployServicesErr (CreateOutcome.alreadyExists :: outs) = deployServicesErr outs
    ∧ (deleteServices (DeleteOutcome.notFound :: douts)).failed =
        (deleteServices douts).failed
    ∧ deleteServicesErr (DeleteOutcome.notFound :: douts) = deleteServicesErr douts := by
  refine ⟨rfl, rfl, ?_, ?_, ?_, ?_, ?_⟩ <;>
    simp [deployServices, deployServicesErr, fireLoop, deleteServices,
      deleteServicesErr, deleteFireLoop]

/-- C8 counterexample: with prefix `service`, the checker's discovery
returns a service named `service-extra`, although that name does not
match the prefix-and-numeric-suffix pattern. -/
theorem c8_counterexample_plain_text_prefix_match :
    listServices "service"
        [⟨"projects/p/locations/l/services/service-extra", "http://u"⟩] =
      [⟨"service-extra", "http://u"⟩]
    ∧ specPrefixNumericPattern "service" "service-extra" = false := by
  decide

/-- C8 amended: the checker's discovery returns exactly the services
whose short name has the configured prefix as a plain textual prefix
(`strings.HasPrefix`), and the orchestrator's delete-phase discovery
exactly those whose short name starts with `prefix ++ "-"`; neither
requires a numeric suffix. -/
theorem c8_discovery_filters_by_textual_prefix (pfx : String)
    (remote : List RemoteService) (s : ServiceInfo) (full : String) :
    (s ∈ listServices pfx remote ↔
      ∃ r, r ∈ remote ∧ hasStrPrefix (shortNameOf r.name) pfx = true
        ∧ s = ⟨shortNameOf r.name, r.uri⟩)
    ∧ (full ∈ deleteServiceNames pfx remote ↔
      ∃ r, r ∈ remote ∧ hasStrPrefix (shortNameOf r.name) (pfx ++ "-") = true
        ∧ full = r.name) := by
  constructor
  · simp only [listServices, List.mem_filterMap]
    constructor
    · rintro ⟨r, hr, hf⟩
      by_cases hp : hasStrPrefix (shortNameOf r.name) pfx
      · rw [if_pos hp] at hf
        exact ⟨r, hr, hp, (Option.some.inj hf).symm⟩
      · rw [if_neg hp] at hf
        cases hf
    · rintro ⟨r, hr, hp, rfl⟩
      exact ⟨r, hr, by rw [if_pos hp]⟩
  · simp only [deleteServiceNames, List.mem_filterMap]
    constructor
    · rintro ⟨r, hr, hf⟩
      by_cases hp : hasStrPrefix (shortNameOf r.name) (pfx ++ "-")
      · rw [if_pos hp] at hf
        exact ⟨r, hr, hp, (Option.some.inj hf).symm⟩
      · rw [if_neg hp] at hf
        cases hf
    · rintro ⟨r, hr, hp, rfl⟩
      exact ⟨r, hr, by rw [if_pos hp]⟩

/-- C9: whenever a phase reaches its final summary, the process exit is
0 iff that summary's failed count is 0: the checker (given a successful,
non-empty discovery) exits 0 iff no probe failed, and the deploy and
delete phases return a nil error — hence exit 0 in the orchestrator's
`main` — iff their summaries read `failed = 0`. -/
theorem c9_exit_zero_iff_no_failures (services : List ServiceInfo)
    (env : Nat → HttpOutcome) (hne : services ≠ [])
    (outs : List CreateOutcome) (douts : List DeleteOutcome) :
    (checkerMain (ListOutcome.ok services) env = 0 ↔
      failedCount (pingAll services env) = 0)
    ∧ (procExit (deployServicesErr outs) = 0 ↔ (deployServices outs).failed = 0)
    ∧ (procExit (deleteServicesErr douts) = 0 ↔ (deleteServices douts).failed = 0) := by
  refine ⟨?_, ?_, ?_⟩
  · simp only [checkerMain, List.length_eq_zero]
    rw [if_neg hne]
    split <;> omega
  · by_cases h : (deployServices outs).failed > 0
    · simp only [deployServicesErr]
      rw [if_pos h]
      simp only [procExit]
      omega
    · simp only [deployServicesErr]
      rw [if_neg h]
      simp only [procExit, true_iff]
      omega
  · by_cases h : (deleteServices douts).failed > 0
    · simp only [deleteServicesErr]
      rw [if_pos h]
      simp only [procExit]
      omega
    · simp only [deleteServicesErr]
      rw [if_neg h]
      simp only [procExit, true_iff]
      omega

/-- C9 witness: a singleton service list whose probe passes. -/
theorem c9_exit_zero_iff_no_failures_witness :
    (([⟨"s", "http://u"⟩] : List ServiceInfo) ≠ [])
    ∧ ((checkerMain (ListOutcome.ok [⟨"s", "http://u"⟩])
          (fun _ => HttpOutcome.response 200 (Except.ok "ok")) = 0 ↔
        failedCount (pingAll [⟨"s", "http://u"⟩]
          (fun _ => HttpOutcome.response 200 (Except.ok "ok"))) = 0)
      ∧ (procExit (deployServicesErr []) = 0 ↔ (deployServices []).failed = 0)
      ∧ (procExit (deleteServicesErr []) = 0 ↔ (deleteServices []).failed = 0)) :=
  ⟨by decide,
    c9_exit_zero_iff_no_failures [⟨"s", "http://u"⟩]
      (fun _ => HttpOutcome.response 200 (Except.ok "ok")) (by decide) [] []⟩

/-- C7: along every schedule of `pingAll`'s goroutines, the number of
probes executing inside the semaphore never exceeds the concurrency
bound `c`. -/
theorem c7_bounded_concurrency (c n : Nat) (s : SemState) (_hc : 1 ≤ c)
    (hr : SemReachable c n s) : s.executing ≤ c := by
  induction hr with
  | refl => exact Nat.zero_le c
  | tail _ hstep ih =>
    cases hstep with
    | acquire w e d hlt => exact hlt
    | release w e d => simp only at ih ⊢; omega

/-- C7 witness: with bound 1 and two goroutines, the state after one
acquisition is reachable and respects the bound. -/
theorem c7_bounded_concurrency_witness :
    1 ≤ 1 ∧ (SemState.mk 1 1 0).executing ≤ 1 :=
  ⟨by decide,
    c7_bounded_concurrency 1 2 ⟨1, 1, 0⟩ (by decide)
      (Relation.ReflTransGen.single (SemStep.acquire 1 0 0 (by decide)))⟩

/-- `pingAllWrites` never changes the length of the result collection. -/
theorem pingAllWrites_length (services : List ServiceInfo) (env : Nat → HttpOutcome) :
    ∀ (order : List Nat) (acc : List ProbeResult),
      (pingAllWrites services env order acc).length = acc.length := by
  intro order
  induction order with
  | nil => intro acc; rfl
  | cons idx rest ih =>
    intro acc
    cases h : services[idx]? with
    | none => simp only [pingAllWrites, h]; exact ih acc
    | some s =>
      simp only [pingAllWrites, h]
      rw [ih, List.length_set]

/-- Slots whose index is never scheduled keep their previous value. -/
theorem pingAllWrites_getElem_not_mem (services : List ServiceInfo)
    (env : Nat → HttpOutcome) :
    ∀ (order : List Nat) (acc : List ProbeResult) (i : Nat), i ∉ order →
      (pingAllWrites services env order acc)[i]? = acc[i]? := by
  intro order
  induction order with
  | nil => intro acc i _; rfl
  | cons idx rest ih =>
    intro acc i hi
    have hne : idx ≠ i := fun he => hi (he ▸ List.mem_cons_self idx rest)
    have hrest : i ∉ rest := fun hr => hi (List.mem_cons_of_mem _ hr)
    cases h : services[idx]? with
    | none => simp only [pingAllWrites, h]; exact ih acc i hrest
    | some s =>
      simp only [pingAllWrites, h]
      rw [ih _ i hrest, List.getElem?_set_ne hne]

/-- A scheduled slot ends up holding the probe result of its own index,
whatever the rest of the schedule does. -/
theorem pingAllWrites_getElem_mem (services : List ServiceInfo)
    (env : Nat → HttpOutcome) :
    ∀ (order : List Nat) (acc : List ProbeResult) (i : Nat) (h : i < services.length),
      order.Nodup → i ∈ order → acc.length = services.length →
      (pingAllWrites services env order acc)[i]? =
        some (pingService (services.get ⟨i, h⟩) (env i)) := by
  intro order
  induction order with
  | nil => intro acc i h _ hmem _; exact absurd hmem (List.not_mem_nil i)
  | cons idx rest ih =>
    intro acc i h hnd hmem hlen
    rw [List.nodup_cons] at hnd
    obtain ⟨hidx_not, hnd'⟩ := hnd
    rcases List.mem_cons.mp hmem with heq | hmem'
    · subst heq
      have hsome : services[i]? = some (services.get ⟨i, h⟩) := by
        simp [List.getElem?_eq_getElem h, List.get_eq_getElem]
      simp only [pingAllWrites, hsome]
      rw [pingAllWrites_getElem_not_mem services env rest _ i hidx_not]
      exact List.getElem?_set_self (by rw [hlen]; exact h)
    · cases h2 : services[idx]? with
      | none => simp only [pingAllWrites, h2]; exact ih acc i h hnd' hmem' hlen
      | some s =>
        simp only [pingAllWrites, h2]
        refine ih _ i h hnd' hmem' ?_
        rw [List.length_set]; exact hlen

/-- C6: for any completion order of the goroutines — any permutation of
the input indices — `pingAll` returns exactly one result per input
service, and the result in slot `i` is the probe of the service at input
index `i`. -/
theorem c6_pingAll_results_align_with_input (services : List ServiceInfo)
    (env : Nat → HttpOutcome) (c : Nat) (order : List Nat) (_hc : 1 ≤ c)
    (hord : order.Perm (List.range services.length)) :
    (pingAllExec services env order).length = services.length
    ∧ ∀ (i : Nat) (h : i < services.length),
        (pingAllExec services env order)[i]? =
          some (pingService (services.get ⟨i, h⟩) (env i)) := by
  constructor
  · rw [pingAllExec, pingAllWrites_length, List.length_replicate]
  · intro i h
    exact pingAllWrites_getElem_mem services env order _ i h
      (hord.nodup_iff.mpr (List.nodup_range _))
      (hord.mem_iff.mpr (List.mem_range.mpr h))
      (List.length_replicate _ _)

/-- C6 witness: two services probed with the completion order reversed. -/
theorem c6_pingAll_results_align_with_input_witness :
    1 ≤ 2
    ∧ List.Perm [1, 0] (List.range ([(⟨"a", "ua"⟩ : ServiceInfo), ⟨"b", "ub"⟩].length))
    ∧ ((pingAllExec [⟨"a", "ua"⟩, ⟨"b", "ub"⟩]
          (fun i => if i = 0 then HttpOutcome.response 200 (Except.ok "ok")
            else HttpOutcome.transportError "t") [1, 0]).length =
        [(⟨"a", "ua"⟩ : ServiceInfo), ⟨"b", "ub"⟩].length
      ∧ ∀ (i : Nat) (h : i < [(⟨"a", "ua"⟩ : ServiceInfo), ⟨"b", "ub"⟩].length),
          (pingAllExec [⟨"a", "ua"⟩, ⟨"b", "ub"⟩]
            (fun i => if i = 0 then HttpOutcome.response 200 (Except.ok "ok")
              else HttpOutcome.transportError "t") [1, 0])[i]? =
            some (pingService ([(⟨"a", "ua"⟩ : ServiceInfo), ⟨"b", "ub"⟩].get ⟨i, h⟩)
              ((fun i => if i = 0 then HttpOutcome.response 200 (Except.ok "ok")
                else HttpOutcome.transportError "t") i))) :=
  ⟨by decide, by decide,
    c6_pingAll_results_align_with_input [⟨"a", "ua"⟩, ⟨"b", "ub"⟩]
      (fun i => if i = 0 then HttpOutcome.response 200 (Except.ok "ok")
        else HttpOutcome.transportError "t") 2 [1, 0] (by decide) (by decide)⟩

/-- With a positive batch size, batching changes nothing about which
names fail: `deploy_batch_list` leaves exactly the failing names. -/
theorem deployBatchList_eq_filter (fails : String → Bool) (bs : Nat) (hbs : 1 ≤ bs) :
    ∀ names : List String, deployBatchList fails bs names = names.filter fails := by
  have H : ∀ (k : Nat) (names : List String), names.length ≤ k →
      deployBatchList fails bs names = names.filter fails := by
    intro k
    induction k with
    | zero =>
      intro names hlen
      have hnil : names = [] := List.eq_nil_of_length_eq_zero (Nat.le_zero.mp hlen)
      subst hnil
      simp [deployBatchList]
    | succ k ih =>
      intro names hlen
      cases names with
      | nil => simp [deployBatchList]
      | cons n rest =>
        rw [deployBatchList]
        rw [dif_neg (by omega : ¬bs = 0)]
        rw [ih ((n :: rest).drop bs) (by
          rw [List.length_drop]
          simp only [List.length_cons]
          simp only [List.length_cons] at hlen
          omega)]
        conv_rhs => rw [← List.take_append_drop bs (n :: rest)]
        rw [List.filter_append]
  intro names
  exact H names.length names le_rfl

theorem deployBatchList_subset (fails : String → Bool) (bs : Nat) (hbs : 1 ≤ bs)
    (names : List String) : deployBatchList fails bs names ⊆ names := by
  rw [deployBatchList_eq_filter fails bs hbs]
  exact List.filter_subset' names

/-- The rounds produced by the retry loop chain together. -/
theorem retryLoop_chained (fails : Nat → String → Bool) (bs : Nat) (hbs : 1 ≤ bs) :
    ∀ (rem retry : Nat) (failed : List String),
      chained failed (retryLoop fails bs retry rem failed) := by
  intro rem
  induction rem with
  | zero => intro retry failed; simp [retryLoop, chained]
  | succ rem ih =>
    intro retry failed
    by_cases hf : failed.isEmpty
    · simp [retryLoop, hf, chained]
    · simp only [retryLoop, hf, if_false, Bool.false_eq_true]
      exact ⟨rfl, deployBatchList_subset (fails (retry + 1)) bs hbs failed,
        ih (retry + 1) _⟩

theorem retryLoop_length (fails : Nat → String → Bool) (bs : Nat) :
    ∀ (rem retry : Nat) (failed : List String),
      (retryLoop fails bs retry rem failed).length ≤ rem := by
  intro rem
  induction rem with
  | zero => intro retry failed; simp [retryLoop]
  | succ rem ih =>
    intro retry failed
    by_cases hf : failed.isEmpty
    · simp [retryLoop, hf]
    · simp only [retryLoop, hf, if_false, Bool.false_eq_true, List.length_cons]
      exact Nat.succ_le_succ (ih (retry + 1) _)

theorem retryLoop_backoff (fails : Nat → String → Bool) (bs : Nat) :
    ∀ (rem retry : Nat) (failed : List String) (r : Round),
      r ∈ retryLoop fails bs retry rem failed → r.backoffSeconds = 30 := by
  intro rem
  induction rem with
  | zero => intro retry failed r hr; simp [retryLoop] at hr
  | succ rem ih =>
    intro retry failed r hr
    by_cases hf : failed.isEmpty
    · simp [retryLoop, hf] at hr
    · simp only [retryLoop, hf, if_false, Bool.false_eq_true, List.mem_cons] at hr
      rcases hr with rfl | hr
      · rfl
      · exact ih (retry + 1) _ r hr

/-- The loop's final `FAILED_NAMES` is what the last generated round
leaves failed. -/
theorem retryFinal_eq_lastFailed (fails : Nat → String → Bool) (bs : Nat) :
    ∀ (rem retry : Nat) (failed : List String),
      retryFinal fails bs retry rem failed =
        lastFailed failed (retryLoop fails bs retry rem failed) := by
  intro rem
  induction rem with
  | zero => intro retry failed; rfl
  | succ rem ih =>
    intro retry failed
    by_cases hf : failed.isEmpty
    · simp [retryFinal, retryLoop, hf, lastFailed]
    · simp only [retryFinal, retryLoop, hf, if_false, Bool.false_eq_true, lastFailed]
      exact ih (retry + 1) _

theorem chained_get_submitted :
    ∀ (rounds : List Round) (f : List String), chained f rounds →
      ∀ (k : Nat) (h : k + 1 < rounds.length),
        (rounds.get ⟨k + 1, h⟩).submitted =
          (rounds.get ⟨k, Nat.lt_of_succ_lt h⟩).failedAfter := by
  intro rounds
  induction rounds with
  | nil => intro f _ k h; exact absurd h (by simp)
  | cons r rs ih =>
    intro f hch k h
    obtain ⟨hsub, hss, hch2⟩ := hch
    cases k with
    | zero =>
      cases rs with
      | nil => simp at h
      | cons r2 rs2 =>
        obtain ⟨hsub2, _, _⟩ := hch2
        exact hsub2
    | succ k2 =>
      exact ih r.failedAfter hch2 k2 (Nat.lt_of_succ_lt_succ h)

theorem chained_failedAfter_subset :
    ∀ (rounds : List Round) (f : List String), chained f rounds →
      ∀ (k : Nat) (h : k < rounds.length),
        (rounds.get ⟨k, h⟩).failedAfter ⊆ (rounds.get ⟨k, h⟩).submitted := by
  intro rounds
  induction rounds with
  | nil => intro f _ k h; exact absurd h (by simp)
  | cons r rs ih =>
    intro f hch k h
    obtain ⟨hsub, hss, hch2⟩ := hch
    cases k with
    | zero => exact hss
    | succ k2 => exact ih r.failedAfter hch2 k2 (Nat.lt_of_succ_lt_succ h)

/-- A name out of some round's failed set is never submitted by any
strictly later round. -/
theorem chained_not_resubmitted (rounds : List Round) (f : List String)
    (hch : chained f rounds) (name : String) :
    ∀ (d k : Nat) (hk : k < rounds.length) (h : k + d + 1 < rounds.length),
      name ∉ (rounds.get ⟨k, hk⟩).failedAfter →
      name ∉ (rounds.get ⟨k + d + 1, h⟩).submitted := by
  intro d
  induction d with
  | zero =>
    intro k hk h hn
    rw [chained_get_submitted rounds f hch k h]
    exact hn
  | succ d ih =>
    intro k hk h hn
    have h1 : k + d + 1 < rounds.length := Nat.lt_of_succ_lt h
    have h2 := ih k hk h1 hn
    show name ∉ (rounds.get ⟨k + d + 1 + 1, h⟩).submitted
    rw [chained_get_submitted rounds f hch (k + d + 1) h]
    intro hmem
    exact h2 (chained_failedAfter_subset rounds f hch (k + d + 1) h1 hmem)

/-- C5: in every deployment run (positive batch size), each retry round
resubmits exactly the prior round's failed set; a name out of a round's
failed set — because it succeeded, or was skipped and never entered the
run — is never resubmitted later; there are at most 3 retry rounds after
the initial one, each preceded by the 30-second backoff; and the
reported final failed set is what remains after the last round. -/
theorem c5_retry_rounds (fails : Nat → String → Bool) (bs : Nat)
    (names : List String) (hbs : 1 ≤ bs) :
    (∀ (k : Nat) (h : k + 1 < (deployServicesRounds fails bs names).length),
        ((deployServicesRounds fails bs names).get ⟨k + 1, h⟩).submitted =
          ((deployServicesRounds fails bs names).get
            ⟨k, Nat.lt_of_succ_lt h⟩).failedAfter)
    ∧ (∀ (k m : Nat) (hk : k < (deployServicesRounds fails bs names).length)
        (hm : m < (deployServicesRounds fails bs names).length), k < m →
        ∀ name : String,
          name ∉ ((deployServicesRounds fails bs names).get ⟨k, hk⟩).failedAfter →
          name ∉ ((deployServicesRounds fails bs names).get ⟨m, hm⟩).submitted)
    ∧ (deployServicesRounds fails bs names).length ≤ 1 + 3
    ∧ (∀ (k : Nat) (h : k < (deployServicesRounds fails bs names).length), 1 ≤ k →
        ((deployServicesRounds fails bs names).get ⟨k, h⟩).backoffSeconds = 30)
    ∧ deployServicesFinalFailed fails bs names =
        lastFailed names (deployServicesRounds fails bs names) := by
  have hch : chained names (deployServicesRounds fails bs names) :=
    ⟨rfl, deployBatchList_subset (fails 0) bs hbs names,
      retryLoop_chained fails bs hbs 3 0 _⟩
  refine ⟨chained_get_submitted _ names hch, ?_, ?_, ?_, ?_⟩
  · intro k m hk hm hkm name hn
    obtain ⟨d, rfl⟩ : ∃ d, m = k + d + 1 := ⟨m - k - 1, by omega⟩
    exact chained_not_resubmitted _ names hch name d k hk hm hn
  · show (Round.mk 0 names _ :: retryLoop fails bs 0 3 _).length ≤ 1 + 3
    simp only [List.length_cons]
    have := retryLoop_length fails bs 3 0 (deployBatchList (fails 0) bs names)
    omega
  · intro k h hk1
    cases k with
    | zero => omega
    | succ j =>
      exact retryLoop_backoff fails bs 3 0 _ _
        (List.get_mem (retryLoop fails bs 0 3 (deployBatchList (fails 0) bs names)) j
          (Nat.lt_of_succ_lt_succ h))
  · show retryFinal fails bs 0 3 (deployBatchList (fails 0) bs names) = _
    rw [retryFinal_eq_lastFailed]
    rfl

/-- C5 witness: one name, nothing fails, batch size 1. -/
theorem c5_retry_rounds_witness :
    1 ≤ 1 ∧
    ((∀ (k : Nat)
        (h : k + 1 < (deployServicesRounds (fun _ _ => false) 1 ["a"]).length),
        ((deployServicesRounds (fun _ _ => false) 1 ["a"]).get ⟨k + 1, h⟩).submitted =
          ((deployServicesRounds (fun _ _ => false) 1 ["a"]).get
            ⟨k, Nat.lt_of_succ_lt h⟩).failedAfter)
    ∧ (∀ (k m : Nat)
        (hk : k < (deployServicesRounds (fun _ _ => false) 1 ["a"]).length)
        (hm : m < (deployServicesRounds (fun _ _ => false) 1 ["a"]).length), k < m →
        ∀ name : String,
          name ∉ ((deployServicesRounds (fun _ _ => false) 1 ["a"]).get
            ⟨k, hk⟩).failedAfter →
          name ∉ ((deployServicesRounds (fun _ _ => false) 1 ["a"]).get
            ⟨m, hm⟩).submitted)
    ∧ (deployServicesRounds (fun _ _ => false) 1 ["a"]).length ≤ 1 + 3
    ∧ (∀ (k : Nat)
        (h : k < (deployServicesRounds (fun _ _ => false) 1 ["a"]).length), 1 ≤ k →
        ((deployServicesRounds (fun _ _ => false) 1 ["a"]).get
          ⟨k, h⟩).backoffSeconds = 30)
    ∧ deployServicesFinalFailed (fun _ _ => false) 1 ["a"] =
        lastFailed ["a"] (deployServicesRounds (fun _ _ => false) 1 ["a"])) :=
  ⟨by decide, c5_retry_rounds (fun _ _ => false) 1 ["a"] (by decide)⟩

/-- C10: `parseConcurrency` always yields a value ≥ 1 when the default
is 10 (the call site's default): the empty string, a non-numeric string,
zero and negative numbers all silently fall back to 10. -/
theorem c10_parseConcurrency_always_at_least_one (val : String) :
    1 ≤ parseConcurrency val 10
    ∧ parseConcurrency "" 10 = 10
    ∧ parseConcurrency "abc" 10 = 10
    ∧ parseConcurrency "0" 10 = 10
    ∧ parseConcurrency "-5" 10 = 10 := by
  refine ⟨?_, by decide, by decide, by decide, by decide⟩
  unfold parseConcurrency
  split
  · decide
  · split
    · decide
    · split
      · decide
      · omega

end CRLC
